import Mathlib

/-!
Verification development for the dmaudit directory-audit tool.

The definitions below are a shallow embedding of `dmaudit/utils.py`
(`DirectoryTreeSummary`, `build_tree`, `to_dict` / `from_dict` / `to_json`)
over an explicit model of a filesystem snapshot.  Paths are modelled as
lists of path components (an absolute path `/a/b` is `["a", "b"]`, the
relative path `.` is `[]`).  File modification times and sizes are natural
numbers (`st_mtime` is an integer epoch-second timestamp in this model).

A filesystem snapshot records, for every directory entry, exactly the
observations the Python code can make of it:
  * `file name stat mimetype` — a regular file; `stat = none` models
    `entry.stat(follow_symlinks=False)` raising `OSError`; `mimetype` is
    the label `magic.from_file(entry.path, mime=True)` returns for it.
  * `symlink name stat mimetype target` — a symbolic link (possibly to a
    directory); `entry.is_dir(follow_symlinks=False)` is `False` for it,
    `stat` is its own (non-following) lstat result, and `target` is the
    entry its target resolves to (never examined by the traversal).
  * `badEntry name` — an entry for which `entry.is_dir()` raises `OSError`.
  * `dir name listing` — a subdirectory together with what `os.scandir`
    yields for it; `FSListing.failed` models `os.scandir` raising
    `FileNotFoundError` / `PermissionError`.
-/

/-- Observable result of a successful `stat` call (sizes and mtimes as
naturals; `st_mtime` in whole epoch seconds). -/
structure FileStat where
  st_size : Nat
  st_mtime : Nat
  deriving DecidableEq, Repr

mutual

inductive FSEntry where
  | file (name : String) (stat : Option FileStat) (mimetype : String)
  | symlink (name : String) (stat : Option FileStat) (mimetype : String) (target : FSEntry)
  | badEntry (name : String)
  | dir (name : String) (listing : FSListing)
  deriving DecidableEq, Repr

inductive FSListing where
  | failed
  | ok (entries : FSEntries)
  deriving DecidableEq, Repr

inductive FSEntries where
  | nil
  | cons (entry : FSEntry) (rest : FSEntries)
  deriving DecidableEq, Repr

end

def FSEntries.toList : FSEntries → List FSEntry
  | .nil => []
  | .cons e es => e :: es.toList

def FSEntries.ofList : List FSEntry → FSEntries
  | [] => .nil
  | e :: es => .cons e (FSEntries.ofList es)

def FSEntries.append : FSEntries → FSEntries → FSEntries
  | .nil, es => es
  | .cons e rest, es => .cons e (rest.append es)

/-- Length of the longest common component prefix of two absolute paths,
as computed by `posixpath.relpath` when it compares the split paths. -/
def commonPrefixLen : List String → List String → Nat
  | a :: as, b :: bs => if a = b then 1 + commonPrefixLen as bs else 0
  | _, _ => 0

/-- Model of `os.path.relpath(path, start)` on two absolute paths given as
component lists: walk up with `..` for the part of `start` beyond the
common prefix, then down the remainder of `path`.  The empty component
list plays the role of the path `"."`. -/
def relpath (path start : List String) : List String :=
  let i := commonPrefixLen path start
  List.replicate (start.length - i) ".." ++ path.drop i

mutual

/-- Embedding of the `DirectoryTreeSummary` object of `dmaudit/utils.py`:
`path` (already made relative to the audit root by `__init__`), `level`,
and the six counters, plus the list of retained child summaries. -/
inductive DirectoryTreeSummary where
  | mk (path : List String) (level : Nat) (size_in_bytes : Nat) (num_files : Nat)
       (last_touched : Nat) (size_in_bytes_text : Nat) (size_in_bytes_gzip : Nat)
       (subdirectories : DTSList)
  deriving DecidableEq, Repr

inductive DTSList where
  | nil
  | cons (d : DirectoryTreeSummary) (rest : DTSList)
  deriving DecidableEq, Repr

end

def DTSList.push (d : DirectoryTreeSummary) : DTSList → DTSList
  | .nil => .cons d .nil
  | .cons x rest => .cons x (rest.push d)

def DTSList.toList : DTSList → List DirectoryTreeSummary
  | .nil => []
  | .cons d rest => d :: rest.toList

def DTSList.isNil : DTSList → Bool
  | .nil => true
  | .cons _ _ => false

namespace DirectoryTreeSummary

def path : DirectoryTreeSummary → List String
  | .mk p _ _ _ _ _ _ _ => p

def level : DirectoryTreeSummary → Nat
  | .mk _ l _ _ _ _ _ _ => l

def size_in_bytes : DirectoryTreeSummary → Nat
  | .mk _ _ s _ _ _ _ _ => s

def num_files : DirectoryTreeSummary → Nat
  | .mk _ _ _ n _ _ _ _ => n

def last_touched : DirectoryTreeSummary → Nat
  | .mk _ _ _ _ t _ _ _ => t

def size_in_bytes_text : DirectoryTreeSummary → Nat
  | .mk _ _ _ _ _ t _ _ => t

def size_in_bytes_gzip : DirectoryTreeSummary → Nat
  | .mk _ _ _ _ _ _ g _ => g

def subdirectories : DirectoryTreeSummary → DTSList
  | .mk _ _ _ _ _ _ _ s => s

/-- Embedding of `DirectoryTreeSummary.__init__(path, start_path, level)`:
stores `os.path.relpath(path, start_path)` and zero counters. -/
def init (path start_path : List String) (level : Nat) : DirectoryTreeSummary :=
  .mk (relpath path start_path) level 0 0 0 0 0 .nil

def add_size (n : Nat) : DirectoryTreeSummary → DirectoryTreeSummary
  | .mk p l s nf lt st sg subs => .mk p l (s + n) nf lt st sg subs

def add_num_files (n : Nat) : DirectoryTreeSummary → DirectoryTreeSummary
  | .mk p l s nf lt st sg subs => .mk p l s (nf + n) lt st sg subs

def add_text (n : Nat) : DirectoryTreeSummary → DirectoryTreeSummary
  | .mk p l s nf lt st sg subs => .mk p l s nf lt (st + n) sg subs

def add_gzip (n : Nat) : DirectoryTreeSummary → DirectoryTreeSummary
  | .mk p l s nf lt st sg subs => .mk p l s nf lt st (sg + n) subs

/-- Embedding of `DirectoryTreeSummary.update_last_touched`: replace
`last_touched` only when the new timestamp is strictly greater. -/
def update_last_touched (timestamp : Nat) : DirectoryTreeSummary → DirectoryTreeSummary
  | .mk p l s nf lt st sg subs =>
      if timestamp > lt then .mk p l s nf timestamp st sg subs
      else .mk p l s nf lt st sg subs

/-- Embedding of `self.subdirectories.append(subdir)` (receiver first,
appended child second). -/
def append_subdir : DirectoryTreeSummary → DirectoryTreeSummary → DirectoryTreeSummary
  | .mk p l s nf lt st sg subs, subdir => .mk p l s nf lt st sg (subs.push subdir)

end DirectoryTreeSummary

/-- Model of `entry.is_dir(follow_symlinks)`.  `none` models the call
raising `OSError`.  With `follow_symlinks = False` a symbolic link is
never reported as a directory, whatever its target is; with
`follow_symlinks = True` the target's kind would be reported instead. -/
def FSEntry.is_dir (follow_symlinks : Bool) : FSEntry → Option Bool
  | .file _ _ _ => some false
  | .symlink _ _ _ target =>
      if follow_symlinks then
        match target with
        | .dir _ _ => some true
        | _ => some false
      else some false
  | .badEntry _ => none
  | .dir _ _ => some true

/-- Model of `entry.stat(follow_symlinks=False)` for the non-directory
entries `build_tree` calls it on: a symlink reports its own lstat result,
never its target's. -/
def FSEntry.lstat : FSEntry → Option FileStat
  | .file _ st _ => st
  | .symlink _ st _ _ => st
  | _ => none

/-- Embedding of the file branch of `build_tree` in `dmaudit/utils.py`:
on a successful `stat` the size, file count and mtime are folded in, and
when `check_mimetype` is set the size is additionally added to the
`text` bucket when the mimetype starts with `"text"`, else to the `gzip`
bucket when it equals `"application/x-gzip"` (a file feeds at most one
bucket); a failed `stat` skips the entry entirely. -/
def process_file (check_mimetype : Bool) (stat : Option FileStat) (mimetype : String)
    (directory : DirectoryTreeSummary) : DirectoryTreeSummary :=
  match stat with
  | none => directory
  | some st =>
      let d := ((directory.add_size st.st_size).add_num_files 1).update_last_touched st.st_mtime
      if check_mimetype then
        if mimetype.startsWith "text" then d.add_text st.st_size
        else if mimetype = "application/x-gzip" then d.add_gzip st.st_size
        else d
      else d

/-- Embedding of the subdirectory branch of `build_tree`: append the
child summary to `subdirectories` only when `level < target_level`, then
fold its counters into the parent and take the max of `last_touched`. -/
def fold_subdir (target_level level : Nat) (directory subdir : DirectoryTreeSummary) :
    DirectoryTreeSummary :=
  let d := if level < target_level then directory.append_subdir subdir else directory
  (((((d.add_size subdir.size_in_bytes).add_text subdir.size_in_bytes_text).add_gzip
      subdir.size_in_bytes_gzip).add_num_files subdir.num_files).update_last_touched
    subdir.last_touched)

mutual

/-- Embedding of `build_tree(path, start_path, target_level, level,
check_mimetype)` from `dmaudit/utils.py`.  The extra `listing` argument
is the filesystem snapshot rooted at `path`: what `os.scandir(path)`
yields there, `FSListing.failed` when it raises (`FileNotFoundError` /
`PermissionError`), in which case the freshly initialised zero summary is
returned unchanged. -/
def build_tree (path start_path : List String) (target_level level : Nat)
    (check_mimetype : Bool) (listing : FSListing) : DirectoryTreeSummary :=
  let directory := DirectoryTreeSummary.init path start_path level
  match listing with
  | .failed => directory
  | .ok entries =>
      build_entries path start_path target_level level check_mimetype entries directory

/-- The `for entry in os.scandir(path)` loop of `build_tree`, processing
entries in enumeration order while threading the accumulator. -/
def build_entries (path start_path : List String) (target_level level : Nat)
    (check_mimetype : Bool) : FSEntries → DirectoryTreeSummary → DirectoryTreeSummary
  | .nil, directory => directory
  | .cons entry rest, directory =>
      build_entries path start_path target_level level check_mimetype rest
        (build_entry path start_path target_level level check_mimetype entry directory)

/-- One iteration of the `build_tree` loop.  The match on the entry
constructor implements the `entry.is_dir(follow_symlinks=False)`
dispatch of the source: `badEntry` is the `except OSError: continue`
case, a `dir` takes the recursive branch, and a `file` or `symlink`
(for which `is_dir(follow_symlinks=False)` is `False`) takes the file
branch with its own non-following `stat` result. -/
def build_entry (path start_path : List String) (target_level level : Nat)
    (check_mimetype : Bool) (entry : FSEntry) (directory : DirectoryTreeSummary) :
    DirectoryTreeSummary :=
  match entry with
  | .badEntry _ => directory
  | .dir name sub =>
      let subdir := build_tree (path ++ [name]) start_path target_level (level + 1)
        check_mimetype sub
      fold_subdir target_level level directory subdir
  | .file _ st mimetype => process_file check_mimetype st mimetype directory
  | .symlink _ st mimetype _ => process_file check_mimetype st mimetype directory

end

/-!
Specification-side aggregates.  `Counters` collects the five aggregate
fields of a summary; `combine` is the way `build_tree` folds two
aggregates together (component-wise sum, max of `last_touched`).  The
`entryContribution` family states, independently of the traversal, what
each snapshot entry should contribute: per observed file its size, one
file, its mtime, and its size in at most one mimetype bucket; per
subdirectory the aggregate of its listing; nothing for failed entries.
-/

structure Counters where
  size_in_bytes : Nat
  size_in_bytes_text : Nat
  size_in_bytes_gzip : Nat
  num_files : Nat
  last_touched : Nat
  deriving DecidableEq, Repr

def Counters.zero : Counters := ⟨0, 0, 0, 0, 0⟩

def combine (a b : Counters) : Counters :=
  ⟨a.size_in_bytes + b.size_in_bytes, a.size_in_bytes_text + b.size_in_bytes_text,
   a.size_in_bytes_gzip + b.size_in_bytes_gzip, a.num_files + b.num_files,
   max a.last_touched b.last_touched⟩

def DirectoryTreeSummary.counters : DirectoryTreeSummary → Counters
  | .mk _ _ s nf lt st sg _ => ⟨s, st, sg, nf, lt⟩

/-- Contribution of one observed (successfully statted) file or symlink:
its size and mtime, one file, and — when classification is on — its size
in the `text` bucket when its mimetype starts with `"text"`, else in the
`gzip` bucket when its mimetype is exactly `"application/x-gzip"`; an
unmatched mimetype feeds no bucket. -/
def file_contribution (check : Bool) (st : FileStat) (mimetype : String) : Counters :=
  ⟨st.st_size,
   if check && mimetype.startsWith "text" then st.st_size else 0,
   if check && !mimetype.startsWith "text" && mimetype == "application/x-gzip" then
     st.st_size
   else 0,
   1, st.st_mtime⟩

mutual

def entryContribution (check : Bool) : FSEntry → Counters
  | .file _ none _ => Counters.zero
  | .file _ (some st) mimetype => file_contribution check st mimetype
  | .symlink _ none _ _ => Counters.zero
  | .symlink _ (some st) mimetype _ => file_contribution check st mimetype
  | .badEntry _ => Counters.zero
  | .dir _ sub => listingAggregate check sub

def listingAggregate (check : Bool) : FSListing → Counters
  | .failed => Counters.zero
  | .ok es => entriesAggregate check es

def entriesAggregate (check : Bool) : FSEntries → Counters
  | .nil => Counters.zero
  | .cons e es => combine (entryContribution check e) (entriesAggregate check es)

end

theorem combine_zero_left (a : Counters) : combine Counters.zero a = a := by
  cases a
  simp [combine, Counters.zero]

theorem combine_zero_right (a : Counters) : combine a Counters.zero = a := by
  cases a
  simp [combine, Counters.zero]

theorem combine_comm (a b : Counters) : combine a b = combine b a := by
  cases a
  cases b
  simp only [combine, Counters.mk.injEq]
  omega

theorem combine_assoc (a b c : Counters) :
    combine (combine a b) c = combine a (combine b c) := by
  cases a
  cases b
  cases c
  simp only [combine, Counters.mk.injEq]
  omega

theorem counters_init (path start_path : List String) (level : Nat) :
    (DirectoryTreeSummary.init path start_path level).counters = Counters.zero := rfl

theorem counters_mk (p : List String) (l s nf lt st sg : Nat) (subs : DTSList) :
    (DirectoryTreeSummary.mk p l s nf lt st sg subs).counters = ⟨s, st, sg, nf, lt⟩ := rfl

theorem counters_add_size (n : Nat) (d : DirectoryTreeSummary) :
    (d.add_size n).counters =
      ⟨d.counters.size_in_bytes + n, d.counters.size_in_bytes_text,
       d.counters.size_in_bytes_gzip, d.counters.num_files, d.counters.last_touched⟩ := by
  cases d
  rfl

theorem counters_add_num_files (n : Nat) (d : DirectoryTreeSummary) :
    (d.add_num_files n).counters =
      ⟨d.counters.size_in_bytes, d.counters.size_in_bytes_text,
       d.counters.size_in_bytes_gzip, d.counters.num_files + n, d.counters.last_touched⟩ := by
  cases d
  rfl

theorem counters_add_text (n : Nat) (d : DirectoryTreeSummary) :
    (d.add_text n).counters =
      ⟨d.counters.size_in_bytes, d.counters.size_in_bytes_text + n,
       d.counters.size_in_bytes_gzip, d.counters.num_files, d.counters.last_touched⟩ := by
  cases d
  rfl

theorem counters_add_gzip (n : Nat) (d : DirectoryTreeSummary) :
    (d.add_gzip n).counters =
      ⟨d.counters.size_in_bytes, d.counters.size_in_bytes_text,
       d.counters.size_in_bytes_gzip + n, d.counters.num_files, d.counters.last_touched⟩ := by
  cases d
  rfl

theorem counters_update_last_touched (ts : Nat) (d : DirectoryTreeSummary) :
    (d.update_last_touched ts).counters =
      ⟨d.counters.size_in_bytes, d.counters.size_in_bytes_text,
       d.counters.size_in_bytes_gzip, d.counters.num_files,
       max d.counters.last_touched ts⟩ := by
  cases d with
  | mk p l s nf lt st sg subs =>
    by_cases h : ts > lt <;>
      simp [DirectoryTreeSummary.update_last_touched, h, counters_mk, Counters.mk.injEq] <;>
        omega

theorem counters_append_subdir (d w : DirectoryTreeSummary) :
    (d.append_subdir w).counters = d.counters := by
  cases d
  rfl

theorem counters_process_file (check : Bool) (st : Option FileStat) (mimetype : String)
    (d : DirectoryTreeSummary) :
    (process_file check st mimetype d).counters =
      combine d.counters
        (match st with
         | none => Counters.zero
         | some s => file_contribution check s mimetype) := by
  cases st with
  | none => simp [process_file, combine_zero_right]
  | some fst =>
      by_cases hc : check
      · by_cases ht : mimetype.startsWith "text"
        · simp [process_file, hc, ht, counters_add_size, counters_add_num_files,
            counters_update_last_touched, counters_add_text, file_contribution, combine,
            Counters.mk.injEq, beq_iff_eq]
        · by_cases hg : mimetype = "application/x-gzip"
          · subst hg
            simp [process_file, hc, ht, counters_add_size, counters_add_num_files,
              counters_update_last_touched, counters_add_gzip, file_contribution, combine,
              Counters.mk.injEq, beq_iff_eq]
          · simp [process_file, hc, ht, hg, counters_add_size, counters_add_num_files,
              counters_update_last_touched, file_contribution, combine,
              Counters.mk.injEq, beq_iff_eq]
      · simp [process_file, hc, counters_add_size, counters_add_num_files,
          counters_update_last_touched, file_contribution, combine, Counters.mk.injEq]

theorem counters_fold_subdir (target_level level : Nat) (d w : DirectoryTreeSummary) :
    (fold_subdir target_level level d w).counters = combine d.counters w.counters := by
  by_cases hl : level < target_level <;>
    cases w with
    | mk p2 l2 s2 nf2 lt2 t2 g2 subs2 =>
      simp [fold_subdir, hl, counters_add_size, counters_add_text, counters_add_gzip,
        counters_add_num_files, counters_update_last_touched, counters_append_subdir,
        DirectoryTreeSummary.size_in_bytes, DirectoryTreeSummary.size_in_bytes_text,
        DirectoryTreeSummary.size_in_bytes_gzip, DirectoryTreeSummary.num_files,
        DirectoryTreeSummary.last_touched, counters_mk, combine, Counters.mk.injEq]

mutual

theorem counters_build_entry : ∀ (e : FSEntry) (path start_path : List String)
    (target_level level : Nat) (check : Bool) (d : DirectoryTreeSummary),
    (build_entry path start_path target_level level check e d).counters =
      combine d.counters (entryContribution check e) := fun e path start_path t l c d =>
  match e with
  | .badEntry _ => by
      simp [build_entry, entryContribution, combine_zero_right]
  | .file _ st mimetype => by
      cases st <;>
        simp [build_entry, entryContribution, counters_process_file]
  | .symlink _ st mimetype _ => by
      cases st <;>
        simp [build_entry, entryContribution, counters_process_file]
  | .dir name sub => by
      simp only [build_entry, entryContribution, counters_fold_subdir,
        counters_build_tree sub (path ++ [name]) start_path t (l + 1) c]

theorem counters_build_tree : ∀ (listing : FSListing) (path start_path : List String)
    (target_level level : Nat) (check : Bool),
    (build_tree path start_path target_level level check listing).counters =
      listingAggregate check listing := fun listing path start_path t l c =>
  match listing with
  | .failed => by
      simp [build_tree, listingAggregate, counters_init]
  | .ok es => by
      simp [build_tree, listingAggregate,
        counters_build_entries es path start_path t l c _, counters_init,
        combine_zero_left]

theorem counters_build_entries : ∀ (es : FSEntries) (path start_path : List String)
    (target_level level : Nat) (check : Bool) (d : DirectoryTreeSummary),
    (build_entries path start_path target_level level check es d).counters =
      combine d.counters (entriesAggregate check es) := fun es path start_path t l c d =>
  match es with
  | .nil => by
      simp [build_entries, entriesAggregate, combine_zero_right]
  | .cons e rest => by
      simp only [build_entries, entriesAggregate,
        counters_build_entries rest path start_path t l c _,
        counters_build_entry e path start_path t l c d]
      rw [combine_assoc]

end

theorem subs_add_size (n : Nat) (d : DirectoryTreeSummary) :
    (d.add_size n).subdirectories = d.subdirectories := by
  cases d
  rfl

theorem subs_add_num_files (n : Nat) (d : DirectoryTreeSummary) :
    (d.add_num_files n).subdirectories = d.subdirectories := by
  cases d
  rfl

theorem subs_add_text (n : Nat) (d : DirectoryTreeSummary) :
    (d.add_text n).subdirectories = d.subdirectories := by
  cases d
  rfl

theorem subs_add_gzip (n : Nat) (d : DirectoryTreeSummary) :
    (d.add_gzip n).subdirectories = d.subdirectories := by
  cases d
  rfl

theorem subs_update_last_touched (ts : Nat) (d : DirectoryTreeSummary) :
    (d.update_last_touched ts).subdirectories = d.subdirectories := by
  cases d with
  | mk p l s nf lt st sg subs =>
    simp only [DirectoryTreeSummary.update_last_touched]
    split_ifs <;> rfl

theorem subs_append_subdir (d w : DirectoryTreeSummary) :
    (d.append_subdir w).subdirectories = d.subdirectories.push w := by
  cases d
  rfl

theorem subs_process_file (check : Bool) (st : Option FileStat) (mimetype : String)
    (d : DirectoryTreeSummary) :
    (process_file check st mimetype d).subdirectories = d.subdirectories := by
  cases st with
  | none => rfl
  | some fst =>
      simp only [process_file]
      split_ifs <;>
        simp [subs_add_size, subs_add_num_files, subs_add_text, subs_add_gzip,
          subs_update_last_touched]

theorem subs_fold_subdir (target_level level : Nat) (d w : DirectoryTreeSummary) :
    (fold_subdir target_level level d w).subdirectories =
      if level < target_level then d.subdirectories.push w else d.subdirectories := by
  simp only [fold_subdir]
  split_ifs <;>
    simp [subs_add_size, subs_add_num_files, subs_add_text, subs_add_gzip,
      subs_update_last_touched, subs_append_subdir]

theorem level_add_size (n : Nat) (d : DirectoryTreeSummary) :
    (d.add_size n).level = d.level := by
  cases d
  rfl

theorem level_add_num_files (n : Nat) (d : DirectoryTreeSummary) :
    (d.add_num_files n).level = d.level := by
  cases d
  rfl

theorem level_add_text (n : Nat) (d : DirectoryTreeSummary) :
    (d.add_text n).level = d.level := by
  cases d
  rfl

theorem level_add_gzip (n : Nat) (d : DirectoryTreeSummary) :
    (d.add_gzip n).level = d.level := by
  cases d
  rfl

theorem level_update_last_touched (ts : Nat) (d : DirectoryTreeSummary) :
    (d.update_last_touched ts).level = d.level := by
  cases d with
  | mk p l s nf lt st sg subs =>
    simp only [DirectoryTreeSummary.update_last_touched]
    split_ifs <;> rfl

theorem level_append_subdir (d w : DirectoryTreeSummary) :
    (d.append_subdir w).level = d.level := by
  cases d
  rfl

theorem level_process_file (check : Bool) (st : Option FileStat) (mimetype : String)
    (d : DirectoryTreeSummary) :
    (process_file check st mimetype d).level = d.level := by
  cases st with
  | none => rfl
  | some fst =>
      simp only [process_file]
      split_ifs <;>
        simp [level_add_size, level_add_num_files, level_add_text, level_add_gzip,
          level_update_last_touched]

theorem level_fold_subdir (target_level level : Nat) (d w : DirectoryTreeSummary) :
    (fold_subdir target_level level d w).level = d.level := by
  simp only [fold_subdir]
  split_ifs <;>
    simp [level_add_size, level_add_num_files, level_add_text, level_add_gzip,
      level_update_last_touched, level_append_subdir]

theorem level_build_entry (e : FSEntry) (path start_path : List String)
    (target_level level : Nat) (check : Bool) (d : DirectoryTreeSummary) :
    (build_entry path start_path target_level level check e d).level = d.level := by
  cases e <;>
    simp [build_entry, level_fold_subdir, level_process_file]

theorem level_build_entries : ∀ (es : FSEntries) (path start_path : List String)
    (target_level level : Nat) (check : Bool) (d : DirectoryTreeSummary),
    (build_entries path start_path target_level level check es d).level = d.level :=
  fun es path start_path t l c d =>
  match es with
  | .nil => rfl
  | .cons e rest => by
      simp only [build_entries]
      rw [level_build_entries rest path start_path t l c _, level_build_entry]

theorem level_build_tree (listing : FSListing) (path start_path : List String)
    (target_level level : Nat) (check : Bool) :
    (build_tree path start_path target_level level check listing).level = level := by
  cases listing with
  | failed => rfl
  | ok es =>
      simp only [build_tree]
      rw [level_build_entries]
      rfl

/-!
Pruning.  `pruned_below cutoff` checks, over a whole summary tree, that
every node whose stored `level` is at least `cutoff` has an empty
`subdirectories` list — the shape `build_tree` is supposed to produce:
subtrees are still traversed and folded below the cutoff, but no longer
retained.
-/

mutual

def pruned_below (cutoff : Nat) : DirectoryTreeSummary → Bool
  | .mk _ lvl _ _ _ _ _ subs =>
      (if lvl < cutoff then true else subs.isNil) && pruned_below_list cutoff subs

def pruned_below_list (cutoff : Nat) : DTSList → Bool
  | .nil => true
  | .cons d rest => pruned_below cutoff d && pruned_below_list cutoff rest

end

theorem pruned_below_eq (cutoff : Nat) (d : DirectoryTreeSummary) :
    pruned_below cutoff d =
      ((if d.level < cutoff then true else d.subdirectories.isNil) &&
        pruned_below_list cutoff d.subdirectories) := by
  cases d
  rfl

theorem pruned_below_list_push : ∀ (cutoff : Nat) (subs : DTSList)
    (w : DirectoryTreeSummary),
    pruned_below_list cutoff (subs.push w) =
      (pruned_below_list cutoff subs && pruned_below cutoff w) := fun cutoff subs w =>
  match subs with
  | .nil => by simp [DTSList.push, pruned_below_list]
  | .cons d rest => by
      simp [DTSList.push, pruned_below_list, pruned_below_list_push cutoff rest w,
        Bool.and_assoc]

theorem pruned_process_file (cutoff : Nat) (check : Bool) (st : Option FileStat)
    (mimetype : String) (d : DirectoryTreeSummary) :
    pruned_below cutoff (process_file check st mimetype d) = pruned_below cutoff d := by
  rw [pruned_below_eq, pruned_below_eq, subs_process_file, level_process_file]

theorem pruned_fold_subdir_lt (cutoff level : Nat) (d w : DirectoryTreeSummary)
    (h : level < cutoff) (hdl : d.level = level) :
    pruned_below cutoff (fold_subdir cutoff level d w) =
      (pruned_below_list cutoff d.subdirectories && pruned_below cutoff w) := by
  rw [pruned_below_eq, subs_fold_subdir, level_fold_subdir, if_pos h,
    pruned_below_list_push, hdl, if_pos h, Bool.true_and]

theorem pruned_fold_subdir_ge (cutoff level : Nat) (d w : DirectoryTreeSummary)
    (h : ¬level < cutoff) :
    pruned_below cutoff (fold_subdir cutoff level d w) = pruned_below cutoff d := by
  rw [pruned_below_eq, pruned_below_eq, subs_fold_subdir, level_fold_subdir, if_neg h]

mutual

theorem pruned_build_tree : ∀ (listing : FSListing) (path start_path : List String)
    (cutoff level : Nat) (check : Bool),
    pruned_below cutoff (build_tree path start_path cutoff level check listing) = true :=
  fun listing path start_path cutoff level check =>
  match listing with
  | .failed => by
      simp [build_tree, DirectoryTreeSummary.init, pruned_below, pruned_below_list,
        DTSList.isNil]
  | .ok es => by
      simp only [build_tree]
      exact pruned_build_entries es path start_path cutoff level check _
        (by rfl)
        (by simp [DirectoryTreeSummary.init, pruned_below, pruned_below_list,
              DTSList.isNil])

theorem pruned_build_entries : ∀ (es : FSEntries) (path start_path : List String)
    (cutoff level : Nat) (check : Bool) (d : DirectoryTreeSummary),
    d.level = level → pruned_below cutoff d = true →
    pruned_below cutoff (build_entries path start_path cutoff level check es d) = true :=
  fun es path start_path cutoff level check d hl hp =>
  match es with
  | .nil => hp
  | .cons e rest => by
      simp only [build_entries]
      exact pruned_build_entries rest path start_path cutoff level check _
        (by rw [level_build_entry, hl])
        (pruned_build_entry e path start_path cutoff level check d hl hp)

theorem pruned_build_entry : ∀ (e : FSEntry) (path start_path : List String)
    (cutoff level : Nat) (check : Bool) (d : DirectoryTreeSummary),
    d.level = level → pruned_below cutoff d = true →
    pruned_below cutoff (build_entry path start_path cutoff level check e d) = true :=
  fun e path start_path cutoff level check d hl hp =>
  match e with
  | .badEntry _ => hp
  | .file _ st mimetype => by
      rw [build_entry, pruned_process_file]
      exact hp
  | .symlink _ st mimetype _ => by
      rw [build_entry, pruned_process_file]
      exact hp
  | .dir name sub => by
      simp only [build_entry]
      by_cases h : level < cutoff
      · rw [pruned_fold_subdir_lt cutoff level _ _ h hl]
        rw [pruned_below_eq] at hp
        simp only [Bool.and_eq_true] at hp ⊢
        exact ⟨hp.2,
          pruned_build_tree sub (path ++ [name]) start_path cutoff (level + 1) check⟩
      · rw [pruned_fold_subdir_ge cutoff level _ _ h]
        exact hp

end

/-- Claim C2: for every snapshot and every pair of cutoff depths, a
sequential build from the root (level 0) yields identical aggregate
counters (`size_in_bytes`, `num_files`, both classified buckets and
`last_touched`); the cutoff only prunes `children` lists, so in the built
tree every node at level at or beyond the cutoff has an empty
`subdirectories` list while its counters are still folded into its
ancestors. -/
theorem build_tree_cutoff_counters_and_pruning (listing : FSListing)
    (path start_path : List String) (t1 t2 : Nat) (check : Bool) :
    (build_tree path start_path t1 0 check listing).counters =
      (build_tree path start_path t2 0 check listing).counters ∧
    pruned_below t1 (build_tree path start_path t1 0 check listing) = true :=
  ⟨by rw [counters_build_tree, counters_build_tree],
   pruned_build_tree listing path start_path t1 0 check⟩

/-!
Last-modified.  `listing_max_mtime` is the specification of
`last_touched`: the maximum mtime over all observed descendant files
(0 when no file was observed), where an unreadable file, entry or
subdirectory contributes nothing.  `lastTouchedMonotone` checks that a
summary tree propagates `last_touched` upward monotonically: every node's
value is at least each retained child's value.
-/

mutual

def entry_max_mtime : FSEntry → Nat
  | .file _ none _ => 0
  | .file _ (some st) _ => st.st_mtime
  | .symlink _ none _ _ => 0
  | .symlink _ (some st) _ _ => st.st_mtime
  | .badEntry _ => 0
  | .dir _ sub => listing_max_mtime sub

def listing_max_mtime : FSListing → Nat
  | .failed => 0
  | .ok es => entries_max_mtime es

def entries_max_mtime : FSEntries → Nat
  | .nil => 0
  | .cons e es => max (entry_max_mtime e) (entries_max_mtime es)

end

mutual

theorem aggregate_last_touched_entry : ∀ (check : Bool) (e : FSEntry),
    (entryContribution check e).last_touched = entry_max_mtime e := fun check e =>
  match e with
  | .file _ none _ => rfl
  | .file _ (some st) _ => rfl
  | .symlink _ none _ _ => rfl
  | .symlink _ (some st) _ _ => rfl
  | .badEntry _ => rfl
  | .dir _ sub => aggregate_last_touched_listing check sub

theorem aggregate_last_touched_listing : ∀ (check : Bool) (listing : FSListing),
    (listingAggregate check listing).last_touched = listing_max_mtime listing :=
  fun check listing =>
  match listing with
  | .failed => rfl
  | .ok es => aggregate_last_touched_entries check es

theorem aggregate_last_touched_entries : ∀ (check : Bool) (es : FSEntries),
    (entriesAggregate check es).last_touched = entries_max_mtime es := fun check es =>
  match es with
  | .nil => rfl
  | .cons e rest => by
      simp only [entriesAggregate, entries_max_mtime, combine,
        aggregate_last_touched_entry check e, aggregate_last_touched_entries check rest]

end

mutual

def lastTouchedMonotone : DirectoryTreeSummary → Bool
  | .mk _ _ _ _ lt _ _ subs => lastTouchedMonotoneList lt subs

def lastTouchedMonotoneList : Nat → DTSList → Bool
  | _, .nil => true
  | lt, .cons d rest =>
      decide (d.last_touched ≤ lt) && lastTouchedMonotone d &&
        lastTouchedMonotoneList lt rest

end

theorem counters_last (d : DirectoryTreeSummary) :
    d.counters.last_touched = d.last_touched := by
  cases d
  rfl

theorem lastTouchedMonotone_eq (d : DirectoryTreeSummary) :
    lastTouchedMonotone d = lastTouchedMonotoneList d.last_touched d.subdirectories := by
  cases d
  rfl

theorem lastTouchedMonotoneList_mono : ∀ (lt lt2 : Nat) (subs : DTSList),
    lastTouchedMonotoneList lt subs = true → lt ≤ lt2 →
    lastTouchedMonotoneList lt2 subs = true := fun lt lt2 subs h hle =>
  match subs with
  | .nil => rfl
  | .cons d rest => by
      simp only [lastTouchedMonotoneList, Bool.and_eq_true, decide_eq_true_eq] at h ⊢
      exact ⟨⟨Nat.le_trans h.1.1 hle, h.1.2⟩,
        lastTouchedMonotoneList_mono lt lt2 rest h.2 hle⟩

theorem lastTouchedMonotoneList_push : ∀ (lt : Nat) (subs : DTSList)
    (w : DirectoryTreeSummary),
    lastTouchedMonotoneList lt (subs.push w) =
      (lastTouchedMonotoneList lt subs &&
        (decide (w.last_touched ≤ lt) && lastTouchedMonotone w)) := fun lt subs w =>
  match subs with
  | .nil => by
      simp [DTSList.push, lastTouchedMonotoneList, Bool.and_assoc]
  | .cons d rest => by
      simp [DTSList.push, lastTouchedMonotoneList,
        lastTouchedMonotoneList_push lt rest w, Bool.and_assoc]

theorem last_process_file (check : Bool) (st : Option FileStat) (mimetype : String)
    (d : DirectoryTreeSummary) :
    d.last_touched ≤ (process_file check st mimetype d).last_touched := by
  have h := congrArg Counters.last_touched (counters_process_file check st mimetype d)
  rw [counters_last] at h
  rw [h]
  cases st <;> simp [combine, counters_last, Counters.zero]

theorem last_fold_subdir (target_level level : Nat) (d w : DirectoryTreeSummary) :
    (fold_subdir target_level level d w).last_touched =
      max d.last_touched w.last_touched := by
  have h := congrArg Counters.last_touched (counters_fold_subdir target_level level d w)
  rw [counters_last] at h
  rw [h]
  simp [combine, counters_last]

mutual

theorem monotone_build_tree : ∀ (listing : FSListing) (path start_path : List String)
    (target_level level : Nat) (check : Bool),
    lastTouchedMonotone
      (build_tree path start_path target_level level check listing) = true :=
  fun listing path start_path t l check =>
  match listing with
  | .failed => rfl
  | .ok es => by
      simp only [build_tree]
      rw [lastTouchedMonotone_eq]
      exact monotone_build_entries es path start_path t l check _ (by rfl)

theorem monotone_build_entries : ∀ (es : FSEntries) (path start_path : List String)
    (target_level level : Nat) (check : Bool) (d : DirectoryTreeSummary),
    lastTouchedMonotoneList d.last_touched d.subdirectories = true →
    lastTouchedMonotoneList
      (build_entries path start_path target_level level check es d).last_touched
      (build_entries path start_path target_level level check es d).subdirectories =
      true := fun es path start_path t l check d hp =>
  match es with
  | .nil => hp
  | .cons e rest => by
      simp only [build_entries]
      exact monotone_build_entries rest path start_path t l check _
        (monotone_build_entry e path start_path t l check d hp)

theorem monotone_build_entry : ∀ (e : FSEntry) (path start_path : List String)
    (target_level level : Nat) (check : Bool) (d : DirectoryTreeSummary),
    lastTouchedMonotoneList d.last_touched d.subdirectories = true →
    lastTouchedMonotoneList
      (build_entry path start_path target_level level check e d).last_touched
      (build_entry path start_path target_level level check e d).subdirectories =
      true := fun e path start_path t l check d hp =>
  match e with
  | .badEntry _ => hp
  | .file _ st mimetype => by
      rw [build_entry, subs_process_file]
      exact lastTouchedMonotoneList_mono _ _ _ hp (last_process_file check st mimetype d)
  | .symlink _ st mimetype _ => by
      rw [build_entry, subs_process_file]
      exact lastTouchedMonotoneList_mono _ _ _ hp (last_process_file check st mimetype d)
  | .dir name sub => by
      simp only [build_entry]
      rw [subs_fold_subdir, last_fold_subdir]
      by_cases h : l < t
      · rw [if_pos h, lastTouchedMonotoneList_push]
        simp only [Bool.and_eq_true, decide_eq_true_eq]
        refine ⟨lastTouchedMonotoneList_mono _ _ _ hp (Nat.le_max_left _ _),
          Nat.le_max_right _ _, ?_⟩
        exact monotone_build_tree sub (path ++ [name]) start_path t (l + 1) check
      · rw [if_neg h]
        exact lastTouchedMonotoneList_mono _ _ _ hp (Nat.le_max_left _ _)

end

/-- Claim C7: at every node of a built tree, `last_touched` equals the
maximum modification time observed over all descendant files (0 when no
file was observed), and it propagates upward monotonically: every node's
`last_touched` is at least each retained child's `last_touched`. -/
theorem build_tree_last_touched_max_monotone (listing : FSListing)
    (path start_path : List String) (target_level level : Nat) (check : Bool) :
    (build_tree path start_path target_level level check listing).last_touched =
      listing_max_mtime listing ∧
    lastTouchedMonotone
      (build_tree path start_path target_level level check listing) = true :=
  ⟨by
    rw [← counters_last, counters_build_tree, aggregate_last_touched_listing],
   monotone_build_tree listing path start_path target_level level check⟩

/-!
Classification buckets.  Specification-side sums over the snapshot, for a
run with classification enabled: the text bucket collects the sizes of
all observed descendant files whose detected mimetype starts with
`"text"`; the gzip bucket those whose mimetype does not start with
`"text"` and equals `"application/x-gzip"` exactly — so a file feeds at
most one bucket, and a file with any other mimetype feeds neither while
still being counted in the total size and the file count.
-/

mutual

def entry_text_size : FSEntry → Nat
  | .file _ (some st) mimetype =>
      if mimetype.startsWith "text" then st.st_size else 0
  | .symlink _ (some st) mimetype _ =>
      if mimetype.startsWith "text" then st.st_size else 0
  | .dir _ sub => listing_text_size sub
  | _ => 0

def listing_text_size : FSListing → Nat
  | .failed => 0
  | .ok es => entries_text_size es

def entries_text_size : FSEntries → Nat
  | .nil => 0
  | .cons e es => entry_text_size e + entries_text_size es

end

mutual

def entry_gzip_size : FSEntry → Nat
  | .file _ (some st) mimetype =>
      if !mimetype.startsWith "text" && mimetype == "application/x-gzip" then st.st_size
      else 0
  | .symlink _ (some st) mimetype _ =>
      if !mimetype.startsWith "text" && mimetype == "application/x-gzip" then st.st_size
      else 0
  | .dir _ sub => listing_gzip_size sub
  | _ => 0

def listing_gzip_size : FSListing → Nat
  | .failed => 0
  | .ok es => entries_gzip_size es

def entries_gzip_size : FSEntries → Nat
  | .nil => 0
  | .cons e es => entry_gzip_size e + entries_gzip_size es

end

mutual

def entry_total_size : FSEntry → Nat
  | .file _ (some st) _ => st.st_size
  | .symlink _ (some st) _ _ => st.st_size
  | .dir _ sub => listing_total_size sub
  | _ => 0

def listing_total_size : FSListing → Nat
  | .failed => 0
  | .ok es => entries_total_size es

def entries_total_size : FSEntries → Nat
  | .nil => 0
  | .cons e es => entry_total_size e + entries_total_size es

end

mutual

def entry_file_count : FSEntry → Nat
  | .file _ (some _) _ => 1
  | .symlink _ (some _) _ _ => 1
  | .dir _ sub => listing_file_count sub
  | _ => 0

def listing_file_count : FSListing → Nat
  | .failed => 0
  | .ok es => entries_file_count es

def entries_file_count : FSEntries → Nat
  | .nil => 0
  | .cons e es => entry_file_count e + entries_file_count es

end

mutual

theorem aggregate_fields_entry : ∀ (e : FSEntry),
    (entryContribution true e).size_in_bytes_text = entry_text_size e ∧
    (entryContribution true e).size_in_bytes_gzip = entry_gzip_size e ∧
    (entryContribution true e).size_in_bytes = entry_total_size e ∧
    (entryContribution true e).num_files = entry_file_count e := fun e =>
  match e with
  | .file _ none _ => ⟨rfl, rfl, rfl, rfl⟩
  | .file _ (some st) mimetype => by
      simp [entryContribution, file_contribution, entry_text_size, entry_gzip_size,
        entry_total_size, entry_file_count]
  | .symlink _ none _ _ => ⟨rfl, rfl, rfl, rfl⟩
  | .symlink _ (some st) mimetype _ => by
      simp [entryContribution, file_contribution, entry_text_size, entry_gzip_size,
        entry_total_size, entry_file_count]
  | .badEntry _ => ⟨rfl, rfl, rfl, rfl⟩
  | .dir _ sub => by
      simpa [entryContribution, entry_text_size, entry_gzip_size, entry_total_size,
        entry_file_count] using aggregate_fields_listing sub

theorem aggregate_fields_listing : ∀ (listing : FSListing),
    (listingAggregate true listing).size_in_bytes_text = listing_text_size listing ∧
    (listingAggregate true listing).size_in_bytes_gzip = listing_gzip_size listing ∧
    (listingAggregate true listing).size_in_bytes = listing_total_size listing ∧
    (listingAggregate true listing).num_files = listing_file_count listing := fun listing =>
  match listing with
  | .failed => ⟨rfl, rfl, rfl, rfl⟩
  | .ok es => by
      simpa [listingAggregate, listing_text_size, listing_gzip_size, listing_total_size,
        listing_file_count] using aggregate_fields_entries es

theorem aggregate_fields_entries : ∀ (es : FSEntries),
    (entriesAggregate true es).size_in_bytes_text = entries_text_size es ∧
    (entriesAggregate true es).size_in_bytes_gzip = entries_gzip_size es ∧
    (entriesAggregate true es).size_in_bytes = entries_total_size es ∧
    (entriesAggregate true es).num_files = entries_file_count es := fun es =>
  match es with
  | .nil => ⟨rfl, rfl, rfl, rfl⟩
  | .cons e rest => by
      have he := aggregate_fields_entry e
      have hr := aggregate_fields_entries rest
      simp [entriesAggregate, combine, entries_text_size, entries_gzip_size,
        entries_total_size, entries_file_count, he.1, he.2.1, he.2.2.1, he.2.2.2,
        hr.1, hr.2.1, hr.2.2.1, hr.2.2.2]

end

theorem counters_size (d : DirectoryTreeSummary) :
    d.counters.size_in_bytes = d.size_in_bytes := by
  cases d
  rfl

theorem counters_text (d : DirectoryTreeSummary) :
    d.counters.size_in_bytes_text = d.size_in_bytes_text := by
  cases d
  rfl

theorem counters_gzip (d : DirectoryTreeSummary) :
    d.counters.size_in_bytes_gzip = d.size_in_bytes_gzip := by
  cases d
  rfl

theorem counters_num (d : DirectoryTreeSummary) :
    d.counters.num_files = d.num_files := by
  cases d
  rfl

/-- Claim C5: with classification enabled, each classified-size bucket of
a built node equals the sum of the sizes of exactly the observed
descendant files whose detected mimetype matches that bucket (text for
mimetypes starting with `"text"`, gzip only for mimetype
`"application/x-gzip"` not starting with `"text"`, so a file feeds at
most one bucket), while every observed file — matched or not — is still
counted in the total size and the file count. -/
theorem build_tree_classified_buckets (listing : FSListing)
    (path start_path : List String) (target_level level : Nat) :
    (build_tree path start_path target_level level true listing).size_in_bytes_text =
      listing_text_size listing ∧
    (build_tree path start_path target_level level true listing).size_in_bytes_gzip =
      listing_gzip_size listing ∧
    (build_tree path start_path target_level level true listing).size_in_bytes =
      listing_total_size listing ∧
    (build_tree path start_path target_level level true listing).num_files =
      listing_file_count listing := by
  have h := counters_build_tree listing path start_path target_level level true
  have hf := aggregate_fields_listing listing
  refine ⟨?_, ?_, ?_, ?_⟩
  · rw [← counters_text, h, hf.1]
  · rw [← counters_gzip, h, hf.2.1]
  · rw [← counters_size, h, hf.2.2.1]
  · rw [← counters_num, h, hf.2.2.2]

theorem entriesAggregate_append : ∀ (check : Bool) (a b : FSEntries),
    entriesAggregate check (a.append b) =
      combine (entriesAggregate check a) (entriesAggregate check b) := fun check a b =>
  match a with
  | .nil => by
      simp [FSEntries.append, entriesAggregate, combine_zero_left]
  | .cons e rest => by
      simp [FSEntries.append, entriesAggregate, entriesAggregate_append check rest b,
        combine_assoc]

/-- Claim C6: a directory whose listing fails (`os.scandir` raising)
builds to exactly the freshly initialised summary — zero counters, no
children — and splicing such a failed directory entry anywhere into a
directory's entry list leaves every aggregate counter of the parent (and
hence of all ancestors) unchanged, with the surrounding entries still
processed. -/
theorem build_tree_listing_failure_zero (path start_path : List String)
    (target_level level : Nat) (check : Bool) (name : String) (pre post : FSEntries) :
    build_tree path start_path target_level level check .failed =
      DirectoryTreeSummary.init path start_path level ∧
    (DirectoryTreeSummary.init path start_path level).counters = Counters.zero ∧
    (DirectoryTreeSummary.init path start_path level).subdirectories = .nil ∧
    (build_tree path start_path target_level level check
        (.ok (pre.append (.cons (.dir name .failed) post)))).counters =
      (build_tree path start_path target_level level check
        (.ok (pre.append post))).counters := by
  refine ⟨rfl, rfl, rfl, ?_⟩
  rw [counters_build_tree, counters_build_tree]
  simp only [listingAggregate, entriesAggregate_append, entriesAggregate,
    entryContribution, listingAggregate, combine_zero_left]

/-- Claim C10: a symbolic-link entry — even one whose target is a
directory — is processed exactly like a regular file carrying the link's
own (non-following) stat result: the traversal never recurses into the
target (the result does not depend on it), and when the link's own stat
succeeds it adds one to the file count and folds the link's own size and
mtime (and mimetype bucket) into the directory, via the file branch. -/
theorem build_tree_symlink_as_file (path start_path : List String)
    (target_level level : Nat) (check : Bool) (name : String) (mimetype : String)
    (st : Option FileStat) (tgt : FSEntry) (fst : FileStat) (d : DirectoryTreeSummary) :
    build_entry path start_path target_level level check
        (.symlink name st mimetype tgt) d =
      build_entry path start_path target_level level check (.file name st mimetype) d ∧
    (build_entry path start_path target_level level check
        (.symlink name (some fst) mimetype tgt) d).counters =
      combine d.counters (file_contribution check fst mimetype) := by
  refine ⟨rfl, ?_⟩
  rw [counters_build_entry]
  rfl

/-- Nine regular files of 12 bytes each (mtimes on 2019-09-17). -/
def nine_files : FSEntries :=
  .cons (.file "f1" (some ⟨12, 1568678401⟩) "text/plain")
    (.cons (.file "f2" (some ⟨12, 1568678402⟩) "text/plain")
      (.cons (.file "f3" (some ⟨12, 1568678403⟩) "text/plain")
        (.cons (.file "f4" (some ⟨12, 1568678404⟩) "text/plain")
          (.cons (.file "f5" (some ⟨12, 1568678405⟩) "text/plain")
            (.cons (.file "f6" (some ⟨12, 1568678406⟩) "text/plain")
              (.cons (.file "f7" (some ⟨12, 1568678407⟩) "text/plain")
                (.cons (.file "f8" (some ⟨12, 1568678408⟩) "text/plain")
                  (.cons (.file "f9" (some ⟨12, 1568678409⟩) "text/plain")
                    .nil))))))))

/-- A root holding exactly the three subdirectories `l1_d1`, `l1_d2`,
`l1_d3`, each with nine 12-byte files, and no files directly in the
root. -/
def scenario_listing : FSListing :=
  .ok (.cons (.dir "l1_d1" (.ok nine_files))
    (.cons (.dir "l1_d2" (.ok nine_files))
      (.cons (.dir "l1_d3" (.ok nine_files)) .nil)))

/-- Claim C8: auditing that root with cutoff depth 1 yields a root
summary with 324 total bytes and 27 files whose children list holds
exactly three retained nodes, each with 108 bytes, 9 files and no
further retained children. -/
theorem build_tree_concrete_scenario :
    (build_tree ["data"] ["data"] 1 0 false scenario_listing).size_in_bytes = 324 ∧
    (build_tree ["data"] ["data"] 1 0 false scenario_listing).num_files = 27 ∧
    (build_tree ["data"] ["data"] 1 0 false
        scenario_listing).subdirectories.toList.length = 3 ∧
    ((build_tree ["data"] ["data"] 1 0 false
        scenario_listing).subdirectories.toList.all fun d =>
      d.size_in_bytes == 108 && d.num_files == 9 && d.subdirectories.isNil) = true := by
  decide

/-!
Serialization.  `TreeDict` mirrors the JSON object emitted by `to_dict`:
the `path` string (still a component list, `[]` standing for `"."`), the
`level`, the five counters, and the nested `subdirectories` array.
`from_dict` reconstructs a summary through
`cls(data["path"], ".", data["level"])`, whose `__init__` recomputes
`os.path.relpath(data["path"], ".")`; both arguments being relative, they
are resolved against the process working directory `cwd` first, exactly
as `posixpath.relpath` does via `abspath`.
-/

mutual

inductive TreeDict where
  | mk (path : List String) (level : Nat) (size_in_bytes : Nat)
       (size_in_bytes_text : Nat) (size_in_bytes_gzip : Nat) (num_files : Nat)
       (last_touched : Nat) (subdirectories : TreeDictList)
  deriving DecidableEq, Repr

inductive TreeDictList where
  | nil
  | cons (d : TreeDict) (rest : TreeDictList)
  deriving DecidableEq, Repr

end

mutual

/-- Embedding of `DirectoryTreeSummary.to_dict`: emit every field as it
is stored, recursing into `subdirectories` in order. -/
def DirectoryTreeSummary.to_dict : DirectoryTreeSummary → TreeDict
  | .mk p l s nf lt st sg subs => .mk p l s st sg nf lt (DTSList.to_dict_list subs)

def DTSList.to_dict_list : DTSList → TreeDictList
  | .nil => .nil
  | .cons d rest => .cons d.to_dict (DTSList.to_dict_list rest)

end

mutual

/-- Embedding of `DirectoryTreeSummary.from_dict`: construct
`cls(data["path"], ".", data["level"])` — whose `__init__` stores
`os.path.relpath(data["path"], ".")`, i.e. `relpath` of the two
arguments resolved against the process working directory `cwd` — then
overwrite every counter from the dictionary and rebuild the
`subdirectories` list in order. -/
def DirectoryTreeSummary.from_dict (cwd : List String) :
    TreeDict → DirectoryTreeSummary
  | .mk p l s st sg nf lt subs =>
      .mk (relpath (cwd ++ p) (cwd ++ [])) l s nf lt st sg
        (DTSList.from_dict_list cwd subs)

def DTSList.from_dict_list (cwd : List String) : TreeDictList → DTSList
  | .nil => .nil
  | .cons d rest => .cons (DirectoryTreeSummary.from_dict cwd d)
      (DTSList.from_dict_list cwd rest)

end

theorem commonPrefixLen_append : ∀ (cwd p : List String),
    commonPrefixLen (cwd ++ p) cwd = cwd.length := fun cwd p =>
  match cwd with
  | [] => by cases p <;> rfl
  | a :: rest => by
      simp [commonPrefixLen, commonPrefixLen_append rest p, Nat.add_comm]

theorem relpath_append (cwd p : List String) : relpath (cwd ++ p) cwd = p := by
  simp [relpath, commonPrefixLen_append, Nat.sub_self, List.drop_left]

mutual

theorem from_dict_to_dict : ∀ (d : DirectoryTreeSummary) (cwd : List String),
    DirectoryTreeSummary.from_dict cwd d.to_dict = d := fun d cwd =>
  match d with
  | .mk p l s nf lt st sg subs => by
      simp only [DirectoryTreeSummary.to_dict, DirectoryTreeSummary.from_dict,
        List.append_nil, relpath_append, DirectoryTreeSummary.mk.injEq, true_and,
        and_true]
      exact from_dict_to_dict_list subs cwd

theorem from_dict_to_dict_list : ∀ (subs : DTSList) (cwd : List String),
    DTSList.from_dict_list cwd (DTSList.to_dict_list subs) = subs := fun subs cwd =>
  match subs with
  | .nil => rfl
  | .cons d rest => by
      simp only [DTSList.to_dict_list, DTSList.from_dict_list, DTSList.cons.injEq]
      exact ⟨from_dict_to_dict d cwd, from_dict_to_dict_list rest cwd⟩

end

/-- Claim C4: deserializing the serialization of any summary tree —
`from_dict` applied to `to_dict`, for any process working directory the
relative paths are resolved against — reproduces the tree exactly:
every stored field (`path`, `level`, all five counters) and, recursively,
the `subdirectories` list. -/
theorem from_dict_to_dict_roundtrip (d : DirectoryTreeSummary) (cwd : List String) :
    DirectoryTreeSummary.from_dict cwd d.to_dict = d :=
  from_dict_to_dict d cwd

theorem toList_push : ∀ (subs : DTSList) (w : DirectoryTreeSummary),
    (subs.push w).toList = subs.toList ++ [w] := fun subs w =>
  match subs with
  | .nil => rfl
  | .cons d rest => by
      simp [DTSList.push, DTSList.toList, toList_push rest w]

/-- Modelled from the spec: `add_subtree(tree, subtree)` of
`dmaudit.utils` is called by `src/tests/test_add_subtree.py` but its
definition is not among the sources provided; following §4.2 (Merger) it
folds the subtree's aggregate counters into the accumulator — sums of
total size, classified buckets and file count, maximum of
`last_touched` — and appends the subtree itself to the accumulator's
`subdirectories`. -/
def add_subtree (tree subtree : DirectoryTreeSummary) : DirectoryTreeSummary :=
  match tree with
  | .mk p l s nf lt st sg subs =>
      .mk p l (s + subtree.size_in_bytes) (nf + subtree.num_files)
        (max lt subtree.last_touched) (st + subtree.size_in_bytes_text)
        (sg + subtree.size_in_bytes_gzip) (subs.push subtree)

/-- Modelled from the spec: `merge_trees(path, level, *trees)` of
`dmaudit.utils` is called by `src/tests/test_merge_trees.py` but its
definition is not among the sources provided; following §4.2 it starts
from a fresh zero-valued summary for the given path and level and folds
every given tree into it with `add_subtree`. -/
def merge_trees (path : List String) (level : Nat)
    (trees : List DirectoryTreeSummary) : DirectoryTreeSummary :=
  trees.foldl add_subtree (.mk path level 0 0 0 0 0 .nil)

theorem counters_add_subtree (tree subtree : DirectoryTreeSummary) :
    (add_subtree tree subtree).counters = combine tree.counters subtree.counters := by
  cases tree with
  | mk p l s nf lt st sg subs =>
    cases subtree with
    | mk p2 l2 s2 nf2 lt2 st2 sg2 subs2 =>
      simp [add_subtree, counters_mk, combine, DirectoryTreeSummary.size_in_bytes,
        DirectoryTreeSummary.num_files, DirectoryTreeSummary.last_touched,
        DirectoryTreeSummary.size_in_bytes_text, DirectoryTreeSummary.size_in_bytes_gzip]

theorem subs_add_subtree (tree subtree : DirectoryTreeSummary) :
    (add_subtree tree subtree).subdirectories = tree.subdirectories.push subtree := by
  cases tree
  rfl

/-- Claim C3: merging two subtrees into a base accumulator with the
Merger is order-independent on the aggregate counters — the total sizes,
both classified buckets and the file counts add up and `last_touched`
takes the maximum either way — and both merged subtrees end up in the
accumulator's children list in both orders; `merge_trees` is exactly
this double fold from a fresh base. -/
theorem add_subtree_order_independent (base a b : DirectoryTreeSummary)
    (path : List String) (level : Nat) :
    (add_subtree (add_subtree base a) b).counters =
      (add_subtree (add_subtree base b) a).counters ∧
    a ∈ (add_subtree (add_subtree base a) b).subdirectories.toList ∧
    b ∈ (add_subtree (add_subtree base a) b).subdirectories.toList ∧
    a ∈ (add_subtree (add_subtree base b) a).subdirectories.toList ∧
    b ∈ (add_subtree (add_subtree base b) a).subdirectories.toList ∧
    merge_trees path level [a, b] =
      add_subtree (add_subtree (.mk path level 0 0 0 0 0 .nil) a) b := by
  refine ⟨?_, ?_, ?_, ?_, ?_, rfl⟩
  · rw [counters_add_subtree, counters_add_subtree, counters_add_subtree,
      counters_add_subtree, combine_assoc, combine_assoc, combine_comm a.counters]
  · simp [subs_add_subtree, toList_push]
  · simp [subs_add_subtree, toList_push]
  · simp [subs_add_subtree, toList_push]
  · simp [subs_add_subtree, toList_push]

/-- Embedding of `DirectoryTreeSummary.to_json` called without a file
handle (`fh=None`): the source evaluates
`json.dumps(self.to_dict(), indent=2)` but the branch has no `return`
statement, so the Python call returns `None` — modelled as `none`, where
`some` of the JSON text would model the string the docstring promises. -/
def DirectoryTreeSummary.to_json (d : DirectoryTreeSummary) : Option String :=
  none

/-- Claim C9 (code bug): `to_json(fh=None)` is documented to return the
JSON string of the tree, but the `fh is None` branch discards the result
of `json.dumps` and falls through, returning `None` for every tree —
here evaluated on a freshly initialised summary. -/
theorem to_json_without_handle_returns_none :
    (DirectoryTreeSummary.init ["data"] ["data"] 0).to_json = none := rfl

/-!
Parallel dispatch.  No parallel builder is present in the sources
provided, so §4.3 (ParallelDispatcher) is modelled from the spec: the
coordinator enumerates the root's immediate subdirectories once — each
becomes one unit of work, built by a worker exactly as the sequential
`build_tree` builds it at depth 1 — processes the root's non-directory
entries itself with the TreeBuilder file logic, and folds completed
units into a zero-valued depth-0 root in completion order, applying the
Merger fold together with the depth/cutoff retention rule.  Worker
completion order is modelled by the `completed` list, a permutation of
the enumerated units.
-/

def subdir_units_entries : FSEntries → List (String × FSListing)
  | .nil => []
  | .cons (.dir name sub) rest => (name, sub) :: subdir_units_entries rest
  | .cons _ rest => subdir_units_entries rest

/-- The root's immediate subdirectories, in enumeration order: the units
of parallel work. -/
def subdir_units : FSListing → List (String × FSListing)
  | .failed => []
  | .ok es => subdir_units_entries es

def nondir_entries_of : FSEntries → List FSEntry
  | .nil => []
  | .cons (.dir _ _) rest => nondir_entries_of rest
  | .cons e rest => e :: nondir_entries_of rest

/-- The root's non-directory entries, in enumeration order: handled by
the coordinator itself. -/
def nondir_entries : FSListing → List FSEntry
  | .failed => []
  | .ok es => nondir_entries_of es

/-- Modelled from the spec: `buildParallel(rootPath, cutoffDepth,
classify, workerCount)`.  `completed` lists the root's subdirectory
units in worker completion order; each unit's result is the worker's
fully sequential `build_tree` of that subdirectory at depth 1, and the
coordinator folds results into the zero-valued depth-0 root with the
Merger fold (`fold_subdir`, which also applies the retention rule at
depth 0), after accounting for the root's own non-directory entries with
the TreeBuilder file logic. -/
def build_parallel (path start_path : List String) (cutoff : Nat) (check : Bool)
    (rootListing : FSListing) (completed : List (String × FSListing)) :
    DirectoryTreeSummary :=
  let base := (nondir_entries rootListing).foldl
    (fun d e => build_entry path start_path cutoff 0 check e d)
    (DirectoryTreeSummary.init path start_path 0)
  completed.foldl
    (fun d u =>
      fold_subdir cutoff 0 d (build_tree (path ++ [u.1]) start_path cutoff 1 check u.2))
    base

def units_aggregate (check : Bool) : List (String × FSListing) → Counters
  | [] => Counters.zero
  | u :: rest => combine (listingAggregate check u.2) (units_aggregate check rest)

def entry_list_aggregate (check : Bool) : List FSEntry → Counters
  | [] => Counters.zero
  | e :: rest => combine (entryContribution check e) (entry_list_aggregate check rest)

theorem combine_left_comm (a b c : Counters) :
    combine a (combine b c) = combine b (combine a c) := by
  rw [← combine_assoc, combine_comm a b, combine_assoc]

theorem counters_foldl_build_entry : ∀ (l : List FSEntry) (path start_path : List String)
    (t lv : Nat) (check : Bool) (d : DirectoryTreeSummary),
    ((l.foldl (fun d e => build_entry path start_path t lv check e d) d).counters =
      combine d.counters (entry_list_aggregate check l)) := fun l path start_path t lv c d =>
  match l with
  | [] => by simp [entry_list_aggregate, combine_zero_right]
  | e :: rest => by
      simp only [List.foldl_cons, entry_list_aggregate]
      rw [counters_foldl_build_entry rest path start_path t lv c _,
        counters_build_entry, combine_assoc]

theorem counters_foldl_units : ∀ (units : List (String × FSListing))
    (path start_path : List String) (cutoff : Nat) (check : Bool)
    (d : DirectoryTreeSummary),
    ((units.foldl
        (fun d u =>
          fold_subdir cutoff 0 d
            (build_tree (path ++ [u.1]) start_path cutoff 1 check u.2)) d).counters =
      combine d.counters (units_aggregate check units)) :=
  fun units path start_path cutoff c d =>
  match units with
  | [] => by simp [units_aggregate, combine_zero_right]
  | u :: rest => by
      simp only [List.foldl_cons, units_aggregate]
      rw [counters_foldl_units rest path start_path cutoff c _, counters_fold_subdir,
        counters_build_tree, combine_assoc]

theorem units_aggregate_perm (check : Bool) (u1 u2 : List (String × FSListing))
    (h : List.Perm u1 u2) : units_aggregate check u1 = units_aggregate check u2 := by
  induction h with
  | nil => rfl
  | cons x _ ih => simp [units_aggregate, ih]
  | swap x y l => simp [units_aggregate, combine_left_comm]
  | trans _ _ ih1 ih2 => rw [ih1, ih2]

theorem entriesAggregate_partition : ∀ (check : Bool) (es : FSEntries),
    entriesAggregate check es =
      combine (entry_list_aggregate check (nondir_entries_of es))
        (units_aggregate check (subdir_units_entries es)) := fun check es =>
  match es with
  | .nil => (combine_zero_left _).symm
  | .cons e rest => by
      cases e with
      | dir name sub =>
          simp only [entriesAggregate, entryContribution, nondir_entries_of,
            subdir_units_entries, units_aggregate]
          rw [entriesAggregate_partition check rest, combine_left_comm]
      | file n st m =>
          simp only [entriesAggregate, nondir_entries_of, subdir_units_entries,
            entry_list_aggregate]
          rw [entriesAggregate_partition check rest, combine_assoc]
      | symlink n st m tgt =>
          simp only [entriesAggregate, nondir_entries_of, subdir_units_entries,
            entry_list_aggregate]
          rw [entriesAggregate_partition check rest, combine_assoc]
      | badEntry n =>
          simp only [entriesAggregate, nondir_entries_of, subdir_units_entries,
            entry_list_aggregate]
          rw [entriesAggregate_partition check rest, combine_assoc]

theorem subs_build_entries_toList : ∀ (es : FSEntries) (path start_path : List String)
    (t lv : Nat) (check : Bool) (d : DirectoryTreeSummary),
    (build_entries path start_path t lv check es d).subdirectories.toList =
      d.subdirectories.toList ++
        (if lv < t then
          (subdir_units_entries es).map
            (fun u => build_tree (path ++ [u.1]) start_path t (lv + 1) check u.2)
        else []) := fun es path start_path t lv c d =>
  match es with
  | .nil => by simp [build_entries, subdir_units_entries]
  | .cons e rest => by
      cases e with
      | badEntry n =>
          simp only [build_entries, build_entry]
          rw [subs_build_entries_toList rest path start_path t lv c d]
          simp [subdir_units_entries]
      | file n st m =>
          simp only [build_entries, build_entry]
          rw [subs_build_entries_toList rest path start_path t lv c _,
            subs_process_file]
          simp [subdir_units_entries]
      | symlink n st m tgt =>
          simp only [build_entries, build_entry]
          rw [subs_build_entries_toList rest path start_path t lv c _,
            subs_process_file]
          simp [subdir_units_entries]
      | dir name sub =>
          simp only [build_entries, build_entry]
          rw [subs_build_entries_toList rest path start_path t lv c _,
            subs_fold_subdir]
          by_cases h : lv < t
          · simp [h, toList_push, subdir_units_entries, List.append_assoc]
          · simp [h, subdir_units_entries]

theorem subs_build_tree_toList (listing : FSListing) (path start_path : List String)
    (cutoff : Nat) (check : Bool) :
    (build_tree path start_path cutoff 0 check listing).subdirectories.toList =
      (if 0 < cutoff then
        (subdir_units listing).map
          (fun u => build_tree (path ++ [u.1]) start_path cutoff 1 check u.2)
      else []) := by
  cases listing with
  | failed =>
      simp [build_tree, DirectoryTreeSummary.init, DirectoryTreeSummary.subdirectories,
        DTSList.toList, subdir_units]
  | ok es =>
      simp only [build_tree]
      rw [subs_build_entries_toList]
      simp [DirectoryTreeSummary.init, DirectoryTreeSummary.subdirectories,
        DTSList.toList, subdir_units]

theorem subs_foldl_nondir : ∀ (es : FSEntries) (path start_path : List String)
    (t lv : Nat) (check : Bool) (d : DirectoryTreeSummary),
    ((nondir_entries_of es).foldl
        (fun d e => build_entry path start_path t lv check e d) d).subdirectories =
      d.subdirectories := fun es path start_path t lv c d =>
  match es with
  | .nil => rfl
  | .cons (.dir name sub) rest => by
      simp only [nondir_entries_of]
      exact subs_foldl_nondir rest path start_path t lv c d
  | .cons (.file n st m) rest => by
      simp only [nondir_entries_of, List.foldl_cons]
      rw [subs_foldl_nondir rest path start_path t lv c _]
      simp [build_entry, subs_process_file]
  | .cons (.symlink n st m tgt) rest => by
      simp only [nondir_entries_of, List.foldl_cons]
      rw [subs_foldl_nondir rest path start_path t lv c _]
      simp [build_entry, subs_process_file]
  | .cons (.badEntry n) rest => by
      simp only [nondir_entries_of, List.foldl_cons]
      rw [subs_foldl_nondir rest path start_path t lv c _]
      simp [build_entry]

theorem subs_foldl_units_toList : ∀ (units : List (String × FSListing))
    (path start_path : List String) (cutoff : Nat) (check : Bool)
    (d : DirectoryTreeSummary),
    ((units.foldl
        (fun d u =>
          fold_subdir cutoff 0 d
            (build_tree (path ++ [u.1]) start_path cutoff 1 check u.2))
        d).subdirectories.toList =
      d.subdirectories.toList ++
        (if 0 < cutoff then
          units.map (fun u => build_tree (path ++ [u.1]) start_path cutoff 1 check u.2)
        else [])) := fun units path start_path cutoff c d =>
  match units with
  | [] => by simp
  | u :: rest => by
      simp only [List.foldl_cons]
      rw [subs_foldl_units_toList rest path start_path cutoff c _, subs_fold_subdir]
      by_cases h : 0 < cutoff
      · simp [h, toList_push, List.append_assoc]
      · simp [h]

/-- Claim C1: for a fixed snapshot, the parallel build — one worker unit
per immediate subdirectory of the root, results folded into a zero
depth-0 root in any completion order, root-level files handled by the
coordinator — produces exactly the aggregate counters of the sequential
`build_tree` run from the same root, and its retained children list is a
permutation of the sequential one consisting of the very same subtrees
(so every depth-retained node agrees; only child order can differ). -/
theorem build_parallel_refines_build (rootListing : FSListing)
    (path start_path : List String) (cutoff : Nat) (check : Bool)
    (completed : List (String × FSListing))
    (hperm : List.Perm completed (subdir_units rootListing)) :
    (build_parallel path start_path cutoff check rootListing completed).counters =
      (build_tree path start_path cutoff 0 check rootListing).counters ∧
    List.Perm
      (build_parallel path start_path cutoff check rootListing
        completed).subdirectories.toList
      (build_tree path start_path cutoff 0 check rootListing).subdirectories.toList := by
  constructor
  · rw [counters_build_tree]
    simp only [build_parallel]
    rw [counters_foldl_units, counters_foldl_build_entry, counters_init,
      combine_zero_left, units_aggregate_perm check _ _ hperm]
    cases rootListing with
    | failed =>
        simp [nondir_entries, subdir_units, listingAggregate, entry_list_aggregate,
          units_aggregate, combine_zero_left]
    | ok es =>
        exact (entriesAggregate_partition check es).symm
  · simp only [build_parallel]
    rw [subs_build_tree_toList]
    cases rootListing with
    | failed =>
        have hnil : completed = [] := hperm.eq_nil
        subst hnil
        simp [nondir_entries, subdir_units, DirectoryTreeSummary.init,
          DirectoryTreeSummary.subdirectories, DTSList.toList]
    | ok es =>
        rw [subs_foldl_units_toList]
        have hbase := subs_foldl_nondir es path start_path cutoff 0 check
          (DirectoryTreeSummary.init path start_path 0)
        simp only [nondir_entries]
        rw [hbase]
        simp only [DirectoryTreeSummary.init, DirectoryTreeSummary.subdirectories,
          DTSList.toList, List.nil_append, subdir_units]
        by_cases h : 0 < cutoff
        · simp only [h, if_true]
          exact hperm.map _
        · simp [h]

def par_unit_a : String × FSListing :=
  ("a", .ok (.cons (.file "x" (some ⟨5, 10⟩) "text/plain") .nil))

def par_unit_b : String × FSListing :=
  ("b", .ok (.cons (.file "y" (some ⟨7, 30⟩) "text/plain") .nil))

/-- A root with two subdirectories and one top-level file. -/
def par_fixture : FSListing :=
  .ok (.cons (.dir "a" (.ok (.cons (.file "x" (some ⟨5, 10⟩) "text/plain") .nil)))
    (.cons (.file "r" (some ⟨2, 20⟩) "text/plain")
      (.cons (.dir "b" (.ok (.cons (.file "y" (some ⟨7, 30⟩) "text/plain") .nil)))
        .nil)))

theorem build_parallel_refines_build_witness :
    (build_parallel ["data"] ["data"] 1 false par_fixture
        [par_unit_b, par_unit_a]).counters =
      (build_tree ["data"] ["data"] 1 0 false par_fixture).counters ∧
    List.Perm
      (build_parallel ["data"] ["data"] 1 false par_fixture
        [par_unit_b, par_unit_a]).subdirectories.toList
      (build_tree ["data"] ["data"] 1 0 false par_fixture).subdirectories.toList :=
  build_parallel_refines_build par_fixture ["data"] ["data"] 1 false
    [par_unit_b, par_unit_a] (by decide)
